import Mathlib

/-!
Shallow embedding of the structural source-code scanner of
`codebaseGeniusX` (`src/utils/parser.py`, class `CodeParser`), the
component that builds the Code Context Graph (CCG).

File contents are modelled as Lean `String`s; Python `ast.parse` results
are modelled by an inductive statement tree (`PyStmt`), with `none`
standing for a `SyntaxError`.  The regular-expression patterns used by
the JavaScript/TypeScript extractors are embedded literally as values of
a small regex AST (`RE`) together with a backtracking matcher whose
search order (leftmost start, greedy longest-first, lazy shortest-first,
alternation left-first, non-overlapping continuation) mirrors CPython's
`re.findall`.  Python dicts are modelled as insertion-ordered
association lists.
-/

/-! ### Python string helpers -/

/-- The characters of Python's `\s` class (ASCII range, which is all the
scanner's inputs use): space, tab, newline, carriage return, vertical
tab, form feed. -/
def pySpaceChar (c : Char) : Bool :=
  c = ' ' || c = '\t' || c = '\n' || c = '\r' || c = Char.ofNat 11 || c = Char.ofNat 12

/-- Python's `str.strip()` with no argument: drop `\s` characters from
both ends. -/
def pyStrip (s : String) : String :=
  String.mk (((s.data.dropWhile pySpaceChar).reverse.dropWhile pySpaceChar).reverse)

/-- Python's `str.endswith` (also `PurePath` suffix checks). -/
def pyEndsWith (s suffix : String) : Bool := suffix.data.isSuffixOf s.data

/-- Python's `str.startswith`. -/
def pyStartsWith (s pre : String) : Bool := pre.data.isPrefixOf s.data

/-- Python's `str.split` on a one-character separator. -/
def splitOnCharAux (sep : Char) (acc : List Char) : List Char → List (List Char)
  | [] => [acc.reverse]
  | c :: t =>
    if c = sep then acc.reverse :: splitOnCharAux sep [] t
    else splitOnCharAux sep (c :: acc) t

def splitOnChar (s : String) (sep : Char) : List String :=
  (splitOnCharAux sep [] s.data).map String.mk

/-- `needle` occurs as a contiguous substring of `hay` (Python's
`needle in hay`). -/
def containsSubAux (needle : List Char) : List Char → Bool
  | [] => needle.isEmpty
  | c :: t => needle.isPrefixOf (c :: t) || containsSubAux needle t

def containsSub (hay needle : String) : Bool :=
  containsSubAux needle.data hay.data

/-- One left-to-right, non-overlapping pass replacing every occurrence of
`pat` by `repl`: Python's `str.replace`.  Fuel is the string length plus
one, which suffices because every step consumes at least one character
when `pat` is non-empty (all call sites use non-empty patterns). -/
def replaceAllAux (pat repl : List Char) : Nat → List Char → List Char
  | 0, _ => []
  | _ + 1, [] => []
  | fuel + 1, c :: t =>
    if pat.isPrefixOf (c :: t) then repl ++ replaceAllAux pat repl fuel ((c :: t).drop pat.length)
    else c :: replaceAllAux pat repl fuel t

def replaceAll (s pat repl : String) : String :=
  String.mk (replaceAllAux pat.data repl.data (s.data.length + 1) s.data)

/-- Python's `line.split(sep, 1)` restricted to the case where `sep`
occurs (the scanner only splits after an `in` check); when `sep` is
absent the whole string is returned as the first component. -/
def splitOnFirstAux (sep : List Char) (acc : List Char) : List Char → List Char × List Char
  | [] => (acc.reverse, [])
  | c :: t =>
    if sep.isPrefixOf (c :: t) then (acc.reverse, (c :: t).drop sep.length)
    else splitOnFirstAux sep (c :: acc) t

def splitOnFirst (s sep : String) : String × String :=
  let p := splitOnFirstAux sep.data [] s.data
  (String.mk p.1, String.mk p.2)

/-- Python's `name and name[0].isupper()` guard on a string. -/
def firstCharUpper (s : String) : Bool :=
  match s.data with
  | [] => false
  | c :: _ => c.isUpper

/-! ### A small regex AST and backtracking matcher

Only the combinators that occur in the scanner's patterns are present:
literal text, one-character classes, greedy and lazy Kleene star over a
character class, `+` over a class, sequencing, alternation, greedy `?`,
and the single capturing group each pattern contains. -/

inductive RE where
  | lit (s : String)
  | cls (p : Char → Bool)
  | starG (p : Char → Bool)
  | starL (p : Char → Bool)
  | seq (a b : RE)
  | alt (a b : RE)
  | opt (a : RE)
  | grp (a : RE)

/-- Length of the longest prefix of `cs` all of whose characters satisfy
`p`: the maximum number of characters a star over class `p` can take. -/
def prefixCount (p : Char → Bool) : List Char → Nat
  | [] => 0
  | c :: t => if p c then prefixCount p t + 1 else 0

/-- CPS backtracking matcher.  `k` receives the rest of the input and
the current capture; the first success in backtracking order wins,
matching CPython's leftmost/greedy/lazy/alternation-order semantics. -/
def reRun (r : RE) (cs : List Char) (cap : Option (List Char))
    (k : List Char → Option (List Char) → Option α) : Option α :=
  match r with
  | .lit s => if s.data.isPrefixOf cs then k (cs.drop s.data.length) cap else none
  | .cls p =>
    match cs with
    | [] => none
    | c :: t => if p c then k t cap else none
  | .starG p =>
    (List.range (prefixCount p cs + 1)).reverse.findSome? fun i => k (cs.drop i) cap
  | .starL p =>
    (List.range (prefixCount p cs + 1)).findSome? fun i => k (cs.drop i) cap
  | .seq a b => reRun a cs cap fun cs2 cap2 => reRun b cs2 cap2 k
  | .alt a b =>
    match reRun a cs cap k with
    | some x => some x
    | none => reRun b cs cap k
  | .opt a =>
    match reRun a cs cap k with
    | some x => some x
    | none => k cs cap
  | .grp a => reRun a cs cap fun cs2 _ => k cs2 (some (cs.take (cs.length - cs2.length)))

/-- Try to match `r` at the very start of `cs`; on success return the
text of the capturing group and the rest of the input after the match. -/
def reTry (r : RE) (cs : List Char) : Option (List Char × List Char) :=
  reRun r cs none fun rest cap => some (cap.getD [], rest)

/-- `re.findall` for a pattern with one capturing group: scan start
positions left to right, record the group of each match, resume after
the matched text (non-overlapping).  Fuel `length + 1` suffices because
each step moves at least one character forward. -/
def findallAux (r : RE) : Nat → List Char → List String
  | 0, _ => []
  | fuel + 1, cs =>
    match reTry r cs with
    | some (cap, rest) =>
      String.mk cap ::
        (if rest.length < cs.length then findallAux r fuel rest
         else
           match cs with
           | [] => []
           | _ :: t => findallAux r fuel t)
    | none =>
      match cs with
      | [] => []
      | _ :: t => findallAux r fuel t

def findall (r : RE) (s : String) : List String :=
  findallAux r (s.data.length + 1) s.data

/-! ### Character classes and pattern-building helpers -/

/-- `\w` (ASCII range): letters, digits, underscore. -/
def wChar (c : Char) : Bool := c.isAlphanum || c = '_'

/-- `.` without `DOTALL`: any character except newline. -/
def dotChar (c : Char) : Bool := c ≠ '\n'

/-- `['\"]` : a single or double quote. -/
def quoteChar (c : Char) : Bool := c = Char.ofNat 39 || c = Char.ofNat 34

/-- `[^'\"]` -/
def nonQuoteChar (c : Char) : Bool := !(quoteChar c)

/-- Fold a list of regexes into a sequence. -/
def catR : List RE → RE
  | [] => RE.lit ""
  | [r] => r
  | r :: t => RE.seq r (catR t)

/-- Left-to-right alternation of literal words, as in `(?:class|function|...)`. -/
def wordsR (ws : List String) : RE :=
  match ws with
  | [] => RE.lit ""
  | [w] => RE.lit w
  | w :: t => RE.alt (RE.lit w) (wordsR t)

/-- `\s+` -/
def spacesP : RE := RE.seq (RE.cls pySpaceChar) (RE.starG pySpaceChar)

/-- `\s*` -/
def spacesS : RE := RE.starG pySpaceChar

/-- `(\w+)` : the capturing group every scanner pattern uses. -/
def nameGrp : RE := RE.grp (RE.seq (RE.cls wChar) (RE.starG wChar))

/-- `(?:export\s+)?` -/
def optExport : RE := RE.opt (catR [RE.lit "export", spacesP])

/-- `(?:async\s+)?` -/
def optAsync : RE := RE.opt (catR [RE.lit "async", spacesP])

/-! ### The scanner's regular expressions (from `parser.py`)

Each definition embeds the pattern string appearing at the cited place
in the source, with `\x7b` for a literal opening brace. -/

/-- `import\s+(?:.*?\s+from\s+)?['\"]([^'\"]+)['\"]` (lines 208, 297). -/
def importPattern : RE :=
  catR [RE.lit "import", spacesP,
        RE.opt (catR [RE.starL dotChar, spacesP, RE.lit "from", spacesP]),
        RE.cls quoteChar,
        RE.grp (RE.seq (RE.cls nonQuoteChar) (RE.starG nonQuoteChar)),
        RE.cls quoteChar]

/-- `export\s+(?:default\s+)?(?:class|function|const|let|var|interface|type)\s+(\w+)`
(lines 212, 301). -/
def exportPattern : RE :=
  catR [RE.lit "export", spacesP,
        RE.opt (catR [RE.lit "default", spacesP]),
        wordsR ["class", "function", "const", "let", "var", "interface", "type"],
        spacesP, nameGrp]

/-- `(?:export\s+)?(?:async\s+)?function\s+(\w+)\s*\(` (line 217). -/
def jsFuncPattern : RE :=
  catR [optExport, optAsync, RE.lit "function", spacesP, nameGrp, spacesS, RE.lit "("]

/-- `(?:export\s+)?(?:const|let|var)\s+(\w+)\s*=\s*(?:async\s+)?\([^)]*\)\s*=>` (line 228). -/
def jsArrowPattern : RE :=
  catR [optExport, wordsR ["const", "let", "var"], spacesP, nameGrp,
        spacesS, RE.lit "=", spacesS, optAsync,
        RE.lit "(", RE.starG (fun c => c ≠ ')'), RE.lit ")", spacesS, RE.lit "=>"]

/-- `(?:export\s+)?class\s+(\w+)` (lines 239, 328). -/
def classPattern : RE :=
  catR [optExport, RE.lit "class", spacesP, nameGrp]

/-- `(?:export\s+)?(?:const|function)\s+(\w+)\s*[:=].*?=>\s*\{`
(line 251, reused as `react_component_pattern2` at line 342). -/
def reactComponentPattern : RE :=
  catR [optExport, wordsR ["const", "function"], spacesP, nameGrp,
        spacesS, RE.cls (fun c => c = ':' || c = '='),
        RE.starL dotChar, RE.lit "=>", spacesS, RE.lit "\x7b"]

/-- `(?:export\s+)?(?:async\s+)?function\s+(\w+)\s*[<\(]` (line 306). -/
def tsFuncPattern : RE :=
  catR [optExport, optAsync, RE.lit "function", spacesP, nameGrp,
        spacesS, RE.cls (fun c => c = '<' || c = '(')]

/-- `(?:export\s+)?(?:const|let|var)\s+(\w+)\s*[:=]\s*(?:[^=]*)?=>\s*\{` (line 317). -/
def tsArrowPattern : RE :=
  catR [optExport, wordsR ["const", "let", "var"], spacesP, nameGrp,
        spacesS, RE.cls (fun c => c = ':' || c = '='), spacesS,
        RE.opt (RE.starG (fun c => c ≠ '=')), RE.lit "=>", spacesS, RE.lit "\x7b"]

/-- `(?:export\s+)?(?:const|function)\s+(\w+)\s*:\s*React\.FC` (line 340). -/
def tsReactFCPattern : RE :=
  catR [optExport, wordsR ["const", "function"], spacesP, nameGrp,
        spacesS, RE.lit ":", spacesS, RE.lit "React.FC"]

/-! ### Data model: Node, ModuleData, Dependency, Graph

Python dicts are modelled as insertion-ordered association lists; a
missing dict key of a ModuleData is modelled as a `none` field. -/

structure Node where
  id : String
  type : String
  name : String
  module : String
deriving DecidableEq

structure ModuleData where
  id : String
  path : String
  language : Option String
  classes : List Node
  functions : List Node
  components : Option (List Node)
  imports : Option (List String)
  exports : Option (List String)
deriving DecidableEq

structure Dependency where
  name : String
  version : String
  type : String
deriving DecidableEq

/-- Lookup with default: Python's `d.get(k, v0)` (keys are unique because
they are only ever created through `dictInsert`). -/
def dictGetD (d : List (String × α)) (k : String) (v0 : α) : α :=
  match d with
  | [] => v0
  | kv :: t => if kv.1 = k then kv.2 else dictGetD t k v0

/-- Lookup: Python's `d[k]` as an `Option`. -/
def dictFind (d : List (String × α)) (k : String) : Option α :=
  match d with
  | [] => none
  | kv :: t => if kv.1 = k then some kv.2 else dictFind t k

/-- `d[k] = v` on an insertion-ordered dict: an existing key keeps its
position, a new key is appended at the end. -/
def dictInsert (d : List (String × α)) (k : String) (v : α) : List (String × α) :=
  match d with
  | [] => [(k, v)]
  | kv :: t => if kv.1 = k then (k, v) :: t else kv :: dictInsert t k v

/-- The CCG dict built by `build_code_context_graph` (lines 21-27).
`edges` is declared but never appended to. -/
structure Graph where
  nodes : List Node
  edges : List Node
  modules : List (String × ModuleData)
  language_stats : List (String × Nat)
  dependencies : List Dependency
deriving DecidableEq

/-- The `CodeParser` object: its only attribute is `self.language_stats`,
initialised to `{}` in `__init__` and never reset. -/
structure CodeParser where
  language_stats : List (String × Nat)
deriving DecidableEq

/-! ### Python AST model and the grammar-based extractor

`PyStmt` models the nodes of the `ast` tree that matter to the scanner:
`ast.ClassDef` and `ast.FunctionDef` carry a name and child nodes; every
other construct (including `ast.AsyncFunctionDef`, which the scanner
does not collect) is `other` with its child nodes. -/

inductive PyStmt where
  | classDef (name : String) (body : List PyStmt)
  | functionDef (name : String) (body : List PyStmt)
  | other (body : List PyStmt)

/-- The child nodes of a statement (`ast.iter_child_nodes`). -/
def stmtChildren : PyStmt → List PyStmt
  | .classDef _ b => b
  | .functionDef _ b => b
  | .other b => b

/-! `stmtWeight`/`stmtsWeight`: the number of AST nodes of a statement
(each node counts one); the termination fuel of the traversal. -/

mutual
def stmtWeight : PyStmt → Nat
  | .classDef _ b => 1 + stmtsWeight b
  | .functionDef _ b => 1 + stmtsWeight b
  | .other b => 1 + stmtsWeight b
def stmtsWeight : List PyStmt → Nat
  | [] => 0
  | s :: t => stmtWeight s + stmtsWeight t
end

theorem one_le_stmtWeight (s : PyStmt) : 1 ≤ stmtWeight s := by
  cases s <;> simp [stmtWeight]

theorem stmtsWeight_append (a b : List PyStmt) :
    stmtsWeight (a ++ b) = stmtsWeight a + stmtsWeight b := by
  induction a with
  | nil => simp [stmtsWeight]
  | cons s t ih => simp [stmtsWeight, ih]; omega

theorem stmtsWeight_stmtChildren (s : PyStmt) :
    stmtsWeight (stmtChildren s) + 1 = stmtWeight s := by
  cases s <;> simp [stmtChildren, stmtWeight] <;> omega

/-- Fuel-driven body of `walk`; `walkAux_congr` below shows that any
fuel of at least `stmtsWeight q` (the number of nodes still to be
visited, each visit consuming one unit) computes the full breadth-first
traversal. -/
def walkAux : Nat → List PyStmt → List PyStmt
  | 0, _ => []
  | _ + 1, [] => []
  | fuel + 1, s :: q => s :: walkAux fuel (q ++ stmtChildren s)

/-- `ast.walk`: breadth-first traversal of every node of the tree.  The
queue starts with the top-level statements (the children of the
`ast.Module` root, which itself is neither a class nor a function). -/
def walk (q : List PyStmt) : List PyStmt := walkAux (stmtsWeight q) q

theorem walkAux_nil (fuel : Nat) : walkAux fuel [] = [] := by
  cases fuel <;> rfl

theorem walkAux_congr (fuel : Nat) : ∀ (fuel' : Nat) (q : List PyStmt),
    stmtsWeight q ≤ fuel → stmtsWeight q ≤ fuel' → walkAux fuel q = walkAux fuel' q := by
  induction fuel with
  | zero =>
    intro fuel' q h _
    cases q with
    | nil => rw [walkAux_nil, walkAux_nil]
    | cons s t =>
      have := one_le_stmtWeight s
      simp [stmtsWeight] at h
      omega
  | succ fuel ih =>
    intro fuel' q h h'
    match fuel', q with
    | 0, q =>
      cases q with
      | nil => rw [walkAux_nil, walkAux_nil]
      | cons s t =>
        have := one_le_stmtWeight s
        simp [stmtsWeight] at h'
        omega
    | fuel' + 1, [] => rfl
    | fuel' + 1, s :: q =>
      simp only [walkAux]
      have hc := stmtsWeight_stmtChildren s
      have ha := stmtsWeight_append q (stmtChildren s)
      have hq : stmtsWeight (s :: q) = stmtWeight s + stmtsWeight q := rfl
      rw [ih fuel' (q ++ stmtChildren s) (by omega) (by omega)]

/-- The defining breadth-first recursion of `walk`. -/
theorem walk_cons (s : PyStmt) (q : List PyStmt) :
    walk (s :: q) = s :: walk (q ++ stmtChildren s) := by
  have h1 := one_le_stmtWeight s
  have hc := stmtsWeight_stmtChildren s
  have ha := stmtsWeight_append q (stmtChildren s)
  have hq : stmtsWeight (s :: q) = stmtWeight s + stmtsWeight q := rfl
  show walkAux (stmtsWeight (s :: q)) (s :: q)
      = s :: walkAux (stmtsWeight (q ++ stmtChildren s)) (q ++ stmtChildren s)
  have hsucc : stmtsWeight (s :: q) = (stmtWeight s + stmtsWeight q - 1) + 1 := by omega
  rw [hsucc]
  simp only [walkAux]
  rw [walkAux_congr (stmtWeight s + stmtsWeight q - 1)
        (stmtsWeight (q ++ stmtChildren s)) (q ++ stmtChildren s) (by omega) (by omega)]

/-- The collection loop of `_parse_python_file` (lines 166-180): walk
every node, append a class Node for each `ClassDef` and a function Node
for each `FunctionDef`, ids formed as `f"{module_id}.{node.name}"`. -/
def collectSymbols (moduleId : String) : List PyStmt → List Node × List Node
  | [] => ([], [])
  | s :: rest =>
    let p := collectSymbols moduleId rest
    match s with
    | .classDef name _ =>
      (⟨moduleId ++ "." ++ name, "class", name, moduleId⟩ :: p.1, p.2)
    | .functionDef name _ =>
      (p.1, ⟨moduleId ++ "." ++ name, "function", name, moduleId⟩ :: p.2)
    | .other _ => p

/-- `rel_path.replace('/', '_').replace('.py', '')` (line 156). -/
def pyModuleId (relPath : String) : String :=
  replaceAll (replaceAll relPath "/" "_") ".py" ""

/-- `_parse_python_file` (lines 153-187) applied to a successfully
parsed tree: unconditionally returns a module dict with only the keys
`id`, `path`, `classes`, `functions`. -/
def parsePythonFile (relPath : String) (tree : List PyStmt) : ModuleData :=
  let moduleId := pyModuleId relPath
  let p := collectSymbols moduleId (walk tree)
  { id := moduleId, path := relPath, language := none,
    classes := p.1, functions := p.2,
    components := none, imports := none, exports := none }

/-! ### Pattern-based extractors -/

/-- `rel_path.replace('/', '_').replace('.js', '').replace('.jsx', '')` (line 192). -/
def jsModuleId (relPath : String) : String :=
  replaceAll (replaceAll (replaceAll relPath "/" "_") ".js" "") ".jsx" ""

/-- `rel_path.replace('/', '_').replace('.ts', '').replace('.tsx', '')` (line 281). -/
def tsModuleId (relPath : String) : String :=
  replaceAll (replaceAll (replaceAll relPath "/" "_") ".ts" "") ".tsx" ""

/-- `_parse_javascript_file` (lines 189-276) on file content that was
read successfully: regex-driven extraction; returns `none` (`None`) when
no function, class or component was found. -/
def parseJavascriptFile (relPath content : String) : Option ModuleData :=
  let moduleId := jsModuleId relPath
  let imports := findall importPattern content
  let exports := findall exportPattern content
  let functions :=
    (findall jsFuncPattern content).map
      (fun n => Node.mk (moduleId ++ "." ++ n) "function" n moduleId)
    ++ (findall jsArrowPattern content).map
      (fun n => Node.mk (moduleId ++ "." ++ n) "function" n moduleId)
  let classes :=
    (findall classPattern content).map
      (fun n => Node.mk (moduleId ++ "." ++ n) "class" n moduleId)
  let components :=
    ((findall reactComponentPattern content).filter firstCharUpper).map
      (fun n => Node.mk (moduleId ++ "." ++ n) "component" n moduleId)
  if functions.isEmpty && classes.isEmpty && components.isEmpty then none
  else
    some { id := moduleId, path := relPath, language := some "javascript",
           classes := classes, functions := functions,
           components := some components,
           imports := some imports, exports := some exports }

/-- First-occurrence deduplication.  Models
`set(components_found1 + components_found2)` at line 347: the set keeps
one copy of each name; its CPython iteration order is hash-dependent and
no claim below depends on it, so the first-occurrence order is used. -/
def dedupFirstAux (seen : List String) : List String → List String
  | [] => []
  | x :: t =>
    if seen.contains x then dedupFirstAux seen t
    else x :: dedupFirstAux (x :: seen) t

def dedupFirst (l : List String) : List String := dedupFirstAux [] l

/-- `_parse_typescript_file` (lines 278-371) on file content that was
read successfully. -/
def parseTypescriptFile (relPath content : String) : Option ModuleData :=
  let moduleId := tsModuleId relPath
  let imports := findall importPattern content
  let exports := findall exportPattern content
  let functions :=
    (findall tsFuncPattern content).map
      (fun n => Node.mk (moduleId ++ "." ++ n) "function" n moduleId)
    ++ (findall tsArrowPattern content).map
      (fun n => Node.mk (moduleId ++ "." ++ n) "function" n moduleId)
  let classes :=
    (findall classPattern content).map
      (fun n => Node.mk (moduleId ++ "." ++ n) "class" n moduleId)
  let components :=
    ((dedupFirst (findall tsReactFCPattern content
                  ++ findall reactComponentPattern content)).filter
        firstCharUpper).map
      (fun n => Node.mk (moduleId ++ "." ++ n) "component" n moduleId)
  if functions.isEmpty && classes.isEmpty && components.isEmpty then none
  else
    some { id := moduleId, path := relPath, language := some "typescript",
           classes := classes, functions := functions,
           components := some components,
           imports := some imports, exports := some exports }

/-! ### File classifier -/

/-- The `skip_patterns` list of `_should_skip_file` (lines 436-445). -/
def skipPatterns : List String :=
  ["__pycache__", "/venv/", "/.venv/", "/node_modules/", "/.git/",
   "/dist/", "/build/", "node_modules"]

/-- `_should_skip_file` (lines 431-456), applied to `str(file_path)`:
an explicit `.git`-directory check, then a substring scan over
`skip_patterns`. -/
def shouldSkipFile (pathStr : String) : Bool :=
  if containsSub pathStr "/.git/" || pyEndsWith pathStr "/.git" then true
  else skipPatterns.any (fun pat => containsSub pathStr pat)

/-- `PurePath.suffixes` (for the `.d.ts` check at line 108): the dotted
suffixes of the final path component; a name ending in a dot has none,
and leading dots are not suffix separators. -/
def pathSuffixes (path : String) : List String :=
  let name := (splitOnChar path '/').getLastD ""
  if pyEndsWith name "." then []
  else
    let stripped := String.mk (name.data.dropWhile (fun c => c = '.'))
    ((splitOnChar stripped '.').drop 1).map (fun s => "." ++ s)

/-! ### Repository model and the graph assembler

`rglob('*.<ext>')` yields, per extension, the matching files of the
tree; a `Repo` carries those per-extension lists in traversal order.
Every file carries the full filesystem path seen by `_should_skip_file`
and the `relative_to(repo_path)` path used for module ids.  A Python
file carries its `ast.parse` result (`none` for a `SyntaxError`); a
JS/TS file carries its raw text. -/

structure PyFile where
  path : String
  relPath : String
  parsed : Option (List PyStmt)

structure TextFile where
  path : String
  relPath : String
  content : String

/-- `package.json` after a successful `json.load`: the `dependencies`
and `devDependencies` maps (insertion order). -/
structure PackageJson where
  dependencies : List (String × String)
  devDependencies : List (String × String)

structure Repo where
  pyFiles : List PyFile
  jsFiles : List TextFile
  jsxFiles : List TextFile
  tsFiles : List TextFile
  tsxFiles : List TextFile
  packageJson : Option PackageJson
  requirementsTxt : Option (List String)

/-- `self.language_stats.get(lang, 0) + 1` stored back (lines 57, 77,
95, 119, 148). -/
def bumpStat (stats : List (String × Nat)) (lang : String) : List (String × Nat) :=
  dictInsert stats lang (dictGetD stats lang 0 + 1)

/-- One requirements line of `_extract_dependencies` (lines 409-425):
strip, skip blanks and `#` comments, split on the first `==` or default
the version to `"latest"`. -/
def requirementsLineDeps (line : String) : List Dependency :=
  let l := pyStrip line
  if l != "" && !(pyStartsWith l "#") then
    if containsSub l "==" then
      [⟨pyStrip (splitOnFirst l "==").1, pyStrip (splitOnFirst l "==").2, "dependency"⟩]
    else
      [⟨l, "latest", "dependency"⟩]
  else []

/-- The `package.json` half of `_extract_dependencies` (lines 378-402):
production then development dependencies, tagged by kind. -/
def packageJsonDeps : Option PackageJson → List Dependency
  | none => []
  | some pj =>
    pj.dependencies.map (fun nv => ⟨nv.1, nv.2, "dependency"⟩)
    ++ pj.devDependencies.map (fun nv => ⟨nv.1, nv.2, "devDependency"⟩)

/-- `_extract_dependencies` (lines 373-429): `package.json` results, then
`requirements.txt` results, in manifest order then declaration order. -/
def extractDependencies (repo : Repo) : List Dependency :=
  packageJsonDeps repo.packageJson
  ++ (match repo.requirementsTxt with
      | none => []
      | some lines => (lines.map requirementsLineDeps).flatten)

/-- One iteration of the `.py` sweep of `_parse_python_files`
(lines 44-60).  The returned dict is always non-empty, so the
`if module_data:` test always passes; a `SyntaxError` from `ast.parse`
is caught and the file skipped. -/
def processPyFile (st : CodeParser × Graph) (f : PyFile) : CodeParser × Graph :=
  if shouldSkipFile f.path then st
  else
    match f.parsed with
    | none => st
    | some tree =>
      let md := parsePythonFile f.relPath tree
      (⟨bumpStat st.1.language_stats "Python"⟩,
       { st.2 with
         modules := dictInsert st.2.modules md.id md,
         nodes := st.2.nodes ++ md.classes ++ md.functions })

/-- One iteration of the `.js` (or `.jsx`) sweep of
`_parse_javascript_files` (lines 62-98): both loops run the same body. -/
def processJsFile (st : CodeParser × Graph) (f : TextFile) : CodeParser × Graph :=
  if shouldSkipFile f.path then st
  else
    match parseJavascriptFile f.relPath f.content with
    | none => st
    | some md =>
      (⟨bumpStat st.1.language_stats "JavaScript"⟩,
       { st.2 with
         modules := dictInsert st.2.modules md.id md,
         nodes := st.2.nodes ++ md.classes ++ md.functions ++ md.components.getD [] })

/-- One iteration of the `.ts` sweep of `_parse_typescript_files`
(lines 103-122), including the `.d.ts` declaration-file skip. -/
def processTsFile (st : CodeParser × Graph) (f : TextFile) : CodeParser × Graph :=
  if shouldSkipFile f.path then st
  else if pathSuffixes f.path = [".d", ".ts"] then st
  else
    match parseTypescriptFile f.relPath f.content with
    | none => st
    | some md =>
      (⟨bumpStat st.1.language_stats "TypeScript"⟩,
       { st.2 with
         modules := dictInsert st.2.modules md.id md,
         nodes := st.2.nodes ++ md.classes ++ md.functions ++ md.components.getD [] })

/-- One iteration of the `.tsx` sweep (lines 125-151): same module and
counter updates as the `.ts` loop, without the `.d.ts` check (the
remaining lines only print). -/
def processTsxFile (st : CodeParser × Graph) (f : TextFile) : CodeParser × Graph :=
  if shouldSkipFile f.path then st
  else
    match parseTypescriptFile f.relPath f.content with
    | none => st
    | some md =>
      (⟨bumpStat st.1.language_stats "TypeScript"⟩,
       { st.2 with
         modules := dictInsert st.2.modules md.id md,
         nodes := st.2.nodes ++ md.classes ++ md.functions ++ md.components.getD [] })

/-- `build_code_context_graph` (lines 19-42) as a function of the
`CodeParser` object it runs on: start from the fresh `graph` dict, run
the three language sweeps (five extension sweeps), attach the
dependencies, and store `self.language_stats` — which was mutated, not
reset, by the sweeps — into the graph. -/
def build_code_context_graph (p : CodeParser) (repo : Repo) : CodeParser × Graph :=
  let st0 : CodeParser × Graph := (p, ⟨[], [], [], [], []⟩)
  let st1 := repo.pyFiles.foldl processPyFile st0
  let st2 := repo.jsFiles.foldl processJsFile st1
  let st3 := repo.jsxFiles.foldl processJsFile st2
  let st4 := repo.tsFiles.foldl processTsFile st3
  let st5 := repo.tsxFiles.foldl processTsxFile st4
  (st5.1,
   { st5.2 with
     dependencies := extractDependencies repo,
     language_stats := st5.1.language_stats })

/-- A `CodeParser()` as constructed by `__init__` (line 17). -/
def freshParser : CodeParser := ⟨[]⟩

/-! ### Dictionary lemmas -/

theorem dictGetD_insert (d : List (String × α)) (k k' : String) (v v0 : α) :
    dictGetD (dictInsert d k v) k' v0 = if k = k' then v else dictGetD d k' v0 := by
  induction d with
  | nil => simp [dictInsert, dictGetD]
  | cons kv t ih =>
    simp only [dictInsert]
    split_ifs with h1 <;> simp only [dictGetD, ih] <;> split_ifs <;> simp_all

theorem dictGetD_bumpStat (s : List (String × Nat)) (lang k : String) :
    dictGetD (bumpStat s lang) k 0 = dictGetD s k 0 + (if lang = k then 1 else 0) := by
  rw [bumpStat, dictGetD_insert]
  split_ifs with h
  · subst h; omega
  · omega

theorem dictFind_insert_self (d : List (String × α)) (k : String) (v : α) :
    dictFind (dictInsert d k v) k = some v := by
  induction d with
  | nil => simp [dictInsert, dictFind]
  | cons kv t ih =>
    simp only [dictInsert]
    split_ifs with h <;> simp [dictFind, h, ih]

/-! ### Step-identity lemmas: skipped or failing files change nothing -/

theorem processPyFile_skip (st : CodeParser × Graph) (f : PyFile)
    (h : shouldSkipFile f.path = true) : processPyFile st f = st := by
  simp [processPyFile, h]

theorem processJsFile_skip (st : CodeParser × Graph) (f : TextFile)
    (h : shouldSkipFile f.path = true) : processJsFile st f = st := by
  simp [processJsFile, h]

theorem processTsFile_skip (st : CodeParser × Graph) (f : TextFile)
    (h : shouldSkipFile f.path = true) : processTsFile st f = st := by
  simp [processTsFile, h]

theorem processTsxFile_skip (st : CodeParser × Graph) (f : TextFile)
    (h : shouldSkipFile f.path = true) : processTsxFile st f = st := by
  simp [processTsxFile, h]

theorem processPyFile_syntaxError (st : CodeParser × Graph) (f : PyFile)
    (h : f.parsed = none) : processPyFile st f = st := by
  by_cases hs : shouldSkipFile f.path <;> simp [processPyFile, h, hs]

/-- Folding over a list with an element on which the step function is the
identity gives the same result as folding without it. -/
theorem foldl_middle_id {σ α : Type} (step : σ → α → σ) (x : α)
    (hx : ∀ s, step s x = s) (pre post : List α) (s : σ) :
    (pre ++ x :: post).foldl step s = (pre ++ post).foldl step s := by
  simp [List.foldl_append, List.foldl_cons, hx]

/-! ### Decomposition of the sweeps into a stats part and a graph part

Each sweep iteration updates `self.language_stats` and the graph dict
through components that do not read each other, which the following
step-pair functions and decomposition lemmas make explicit. -/

def statStepPy (p : CodeParser) (f : PyFile) : CodeParser :=
  if shouldSkipFile f.path then p
  else
    match f.parsed with
    | none => p
    | some _ => ⟨bumpStat p.language_stats "Python"⟩

def graphStepPy (g : Graph) (f : PyFile) : Graph :=
  if shouldSkipFile f.path then g
  else
    match f.parsed with
    | none => g
    | some tree =>
      let md := parsePythonFile f.relPath tree
      { g with
        modules := dictInsert g.modules md.id md,
        nodes := g.nodes ++ md.classes ++ md.functions }

def statStepJs (p : CodeParser) (f : TextFile) : CodeParser :=
  if shouldSkipFile f.path then p
  else
    match parseJavascriptFile f.relPath f.content with
    | none => p
    | some _ => ⟨bumpStat p.language_stats "JavaScript"⟩

def graphStepJs (g : Graph) (f : TextFile) : Graph :=
  if shouldSkipFile f.path then g
  else
    match parseJavascriptFile f.relPath f.content with
    | none => g
    | some md =>
      { g with
        modules := dictInsert g.modules md.id md,
        nodes := g.nodes ++ md.classes ++ md.functions ++ md.components.getD [] }

def statStepTs (p : CodeParser) (f : TextFile) : CodeParser :=
  if shouldSkipFile f.path then p
  else if pathSuffixes f.path = [".d", ".ts"] then p
  else
    match parseTypescriptFile f.relPath f.content with
    | none => p
    | some _ => ⟨bumpStat p.language_stats "TypeScript"⟩

def graphStepTs (g : Graph) (f : TextFile) : Graph :=
  if shouldSkipFile f.path then g
  else if pathSuffixes f.path = [".d", ".ts"] then g
  else
    match parseTypescriptFile f.relPath f.content with
    | none => g
    | some md =>
      { g with
        modules := dictInsert g.modules md.id md,
        nodes := g.nodes ++ md.classes ++ md.functions ++ md.components.getD [] }

def statStepTsx (p : CodeParser) (f : TextFile) : CodeParser :=
  if shouldSkipFile f.path then p
  else
    match parseTypescriptFile f.relPath f.content with
    | none => p
    | some _ => ⟨bumpStat p.language_stats "TypeScript"⟩

def graphStepTsx (g : Graph) (f : TextFile) : Graph :=
  if shouldSkipFile f.path then g
  else
    match parseTypescriptFile f.relPath f.content with
    | none => g
    | some md =>
      { g with
        modules := dictInsert g.modules md.id md,
        nodes := g.nodes ++ md.classes ++ md.functions ++ md.components.getD [] }

theorem processPyFile_eq (p : CodeParser) (g : Graph) (f : PyFile) :
    processPyFile (p, g) f = (statStepPy p f, graphStepPy g f) := by
  by_cases hs : shouldSkipFile f.path <;>
    cases hp : f.parsed <;>
      simp [processPyFile, statStepPy, graphStepPy, hs, hp]

theorem processJsFile_eq (p : CodeParser) (g : Graph) (f : TextFile) :
    processJsFile (p, g) f = (statStepJs p f, graphStepJs g f) := by
  by_cases hs : shouldSkipFile f.path <;>
    cases hp : parseJavascriptFile f.relPath f.content <;>
      simp [processJsFile, statStepJs, graphStepJs, hs, hp]

theorem processTsFile_eq (p : CodeParser) (g : Graph) (f : TextFile) :
    processTsFile (p, g) f = (statStepTs p f, graphStepTs g f) := by
  by_cases hs : shouldSkipFile f.path <;>
    by_cases hd : pathSuffixes f.path = [".d", ".ts"] <;>
      cases hp : parseTypescriptFile f.relPath f.content <;>
        simp [processTsFile, statStepTs, graphStepTs, hs, hd, hp]

theorem processTsxFile_eq (p : CodeParser) (g : Graph) (f : TextFile) :
    processTsxFile (p, g) f = (statStepTsx p f, graphStepTsx g f) := by
  by_cases hs : shouldSkipFile f.path <;>
    cases hp : parseTypescriptFile f.relPath f.content <;>
      simp [processTsxFile, statStepTsx, graphStepTsx, hs, hp]

theorem foldl_processPyFile (fs : List PyFile) (p : CodeParser) (g : Graph) :
    fs.foldl processPyFile (p, g) = (fs.foldl statStepPy p, fs.foldl graphStepPy g) := by
  induction fs generalizing p g with
  | nil => rfl
  | cons f t ih => simp only [List.foldl_cons, processPyFile_eq]; exact ih _ _

theorem foldl_processJsFile (fs : List TextFile) (p : CodeParser) (g : Graph) :
    fs.foldl processJsFile (p, g) = (fs.foldl statStepJs p, fs.foldl graphStepJs g) := by
  induction fs generalizing p g with
  | nil => rfl
  | cons f t ih => simp only [List.foldl_cons, processJsFile_eq]; exact ih _ _

theorem foldl_processTsFile (fs : List TextFile) (p : CodeParser) (g : Graph) :
    fs.foldl processTsFile (p, g) = (fs.foldl statStepTs p, fs.foldl graphStepTs g) := by
  induction fs generalizing p g with
  | nil => rfl
  | cons f t ih => simp only [List.foldl_cons, processTsFile_eq]; exact ih _ _

theorem foldl_processTsxFile (fs : List TextFile) (p : CodeParser) (g : Graph) :
    fs.foldl processTsxFile (p, g) = (fs.foldl statStepTsx p, fs.foldl graphStepTsx g) := by
  induction fs generalizing p g with
  | nil => rfl
  | cons f t ih => simp only [List.foldl_cons, processTsxFile_eq]; exact ih _ _

/-! ### Per-sweep file counts and the additivity of the counters -/

/-- Python files that the `.py` sweep counts: not skipped, parseable. -/
def pyCounted (f : PyFile) : Bool := !shouldSkipFile f.path && f.parsed.isSome

/-- JS files the `.js`/`.jsx` sweeps count: not skipped, extractor
returned a module. -/
def jsCounted (f : TextFile) : Bool :=
  !shouldSkipFile f.path && (parseJavascriptFile f.relPath f.content).isSome

/-- TS files the `.ts` sweep counts. -/
def tsCounted (f : TextFile) : Bool :=
  !shouldSkipFile f.path && !(decide (pathSuffixes f.path = [".d", ".ts"]))
    && (parseTypescriptFile f.relPath f.content).isSome

/-- TSX files the `.tsx` sweep counts. -/
def tsxCounted (f : TextFile) : Bool :=
  !shouldSkipFile f.path && (parseTypescriptFile f.relPath f.content).isSome

theorem foldl_statStepPy_getD (fs : List PyFile) (p : CodeParser) (k : String) :
    dictGetD (fs.foldl statStepPy p).language_stats k 0
      = dictGetD p.language_stats k 0
        + (if "Python" = k then (fs.filter pyCounted).length else 0) := by
  induction fs generalizing p with
  | nil => simp
  | cons f t ih =>
    rw [List.foldl_cons, ih]
    by_cases hs : shouldSkipFile f.path <;> cases hp : f.parsed <;>
      simp [statStepPy, pyCounted, hs, hp, dictGetD_bumpStat, List.filter_cons] <;>
      split_ifs <;> omega

theorem foldl_statStepJs_getD (fs : List TextFile) (p : CodeParser) (k : String) :
    dictGetD (fs.foldl statStepJs p).language_stats k 0
      = dictGetD p.language_stats k 0
        + (if "JavaScript" = k then (fs.filter jsCounted).length else 0) := by
  induction fs generalizing p with
  | nil => simp
  | cons f t ih =>
    rw [List.foldl_cons, ih]
    by_cases hs : shouldSkipFile f.path <;>
      cases hp : parseJavascriptFile f.relPath f.content <;>
      simp [statStepJs, jsCounted, hs, hp, dictGetD_bumpStat, List.filter_cons] <;>
      split_ifs <;> omega

theorem foldl_statStepTs_getD (fs : List TextFile) (p : CodeParser) (k : String) :
    dictGetD (fs.foldl statStepTs p).language_stats k 0
      = dictGetD p.language_stats k 0
        + (if "TypeScript" = k then (fs.filter tsCounted).length else 0) := by
  induction fs generalizing p with
  | nil => simp
  | cons f t ih =>
    rw [List.foldl_cons, ih]
    by_cases hs : shouldSkipFile f.path <;>
      by_cases hd : pathSuffixes f.path = [".d", ".ts"] <;>
      cases hp : parseTypescriptFile f.relPath f.content <;>
      simp [statStepTs, tsCounted, hs, hd, hp, dictGetD_bumpStat, List.filter_cons] <;>
      split_ifs <;> omega

theorem foldl_statStepTsx_getD (fs : List TextFile) (p : CodeParser) (k : String) :
    dictGetD (fs.foldl statStepTsx p).language_stats k 0
      = dictGetD p.language_stats k 0
        + (if "TypeScript" = k then (fs.filter tsxCounted).length else 0) := by
  induction fs generalizing p with
  | nil => simp
  | cons f t ih =>
    rw [List.foldl_cons, ih]
    by_cases hs : shouldSkipFile f.path <;>
      cases hp : parseTypescriptFile f.relPath f.content <;>
      simp [statStepTsx, tsxCounted, hs, hp, dictGetD_bumpStat, List.filter_cons] <;>
      split_ifs <;> omega

/-- The parser state after the five sweeps of one
`build_code_context_graph` call starting from state `p`. -/
def buildStats (p : CodeParser) (repo : Repo) : CodeParser :=
  repo.tsxFiles.foldl statStepTsx
    (repo.tsFiles.foldl statStepTs
      (repo.jsxFiles.foldl statStepJs
        (repo.jsFiles.foldl statStepJs
          (repo.pyFiles.foldl statStepPy p))))

/-- The graph dict after the five sweeps, before dependencies and
statistics are attached; it does not depend on the parser state. -/
def buildGraphCore (repo : Repo) : Graph :=
  repo.tsxFiles.foldl graphStepTsx
    (repo.tsFiles.foldl graphStepTs
      (repo.jsxFiles.foldl graphStepJs
        (repo.jsFiles.foldl graphStepJs
          (repo.pyFiles.foldl graphStepPy ⟨[], [], [], [], []⟩))))

theorem build_eq (p : CodeParser) (repo : Repo) :
    build_code_context_graph p repo =
      (buildStats p repo,
       { buildGraphCore repo with
         dependencies := extractDependencies repo,
         language_stats := (buildStats p repo).language_stats }) := by
  simp only [build_code_context_graph, buildStats, buildGraphCore,
    foldl_processPyFile, foldl_processJsFile, foldl_processTsFile, foldl_processTsxFile]

/-- How many files of each language one scan of `repo` counts. -/
def repoLangCount (repo : Repo) (k : String) : Nat :=
  (if "Python" = k then (repo.pyFiles.filter pyCounted).length else 0)
  + (if "JavaScript" = k then
       (repo.jsFiles.filter jsCounted).length + (repo.jsxFiles.filter jsCounted).length
     else 0)
  + (if "TypeScript" = k then
       (repo.tsFiles.filter tsCounted).length + (repo.tsxFiles.filter tsxCounted).length
     else 0)

theorem buildStats_getD (p : CodeParser) (repo : Repo) (k : String) :
    dictGetD (buildStats p repo).language_stats k 0
      = dictGetD p.language_stats k 0 + repoLangCount repo k := by
  simp only [buildStats, repoLangCount, foldl_statStepTsx_getD, foldl_statStepTs_getD,
    foldl_statStepJs_getD, foldl_statStepPy_getD]
  split_ifs <;> omega

/-! ## Claim C1 -/

/-- A one-file repository used to exhibit the retained language counter. -/
def repoC1 : Repo :=
  ⟨[⟨"/r/m.py", "m.py", some []⟩], [], [], [], [], none, none⟩

/-- C1, counterexample: `build_code_context_graph` retains
`self.language_stats` between invocations, so running it twice on the
same parser object over the same unchanged one-Python-file repository
gives a second CCG whose `language_stats` ({"Python": 2}) differs from
the first run's ({"Python": 1}), refuting the claim that the second
run's `language_stats` equals the first run's. -/
theorem c1_counterexample :
    (build_code_context_graph
        (build_code_context_graph freshParser repoC1).1 repoC1).2.language_stats
      = [("Python", 2)] ∧
    (build_code_context_graph freshParser repoC1).2.language_stats = [("Python", 1)] := by
  constructor <;> rfl

/-- C1, amended: the scan itself is deterministic and the second run's
nodes, edges, modules and dependencies equal the first run's, but the
language counter is retained on the parser object, so every counter of
the second run's `language_stats` is twice the corresponding counter of
the first run's. -/
theorem c1_second_run_doubles_stats (repo : Repo) :
    ((build_code_context_graph
        (build_code_context_graph freshParser repo).1 repo).2.nodes
      = (build_code_context_graph freshParser repo).2.nodes) ∧
    ((build_code_context_graph
        (build_code_context_graph freshParser repo).1 repo).2.edges
      = (build_code_context_graph freshParser repo).2.edges) ∧
    ((build_code_context_graph
        (build_code_context_graph freshParser repo).1 repo).2.modules
      = (build_code_context_graph freshParser repo).2.modules) ∧
    ((build_code_context_graph
        (build_code_context_graph freshParser repo).1 repo).2.dependencies
      = (build_code_context_graph freshParser repo).2.dependencies) ∧
    ∀ k, dictGetD (build_code_context_graph
            (build_code_context_graph freshParser repo).1 repo).2.language_stats k 0
          = 2 * dictGetD (build_code_context_graph freshParser repo).2.language_stats k 0 := by
  simp only [build_eq]
  refine ⟨trivial, trivial, trivial, trivial, fun k => ?_⟩
  simp only [buildStats_getD, freshParser]
  simp [dictGetD]
  omega

/-! ## Claim C3 -/

/-- C3, confirmed: for every non-skipped, syntactically valid Python
file, the sweep records the extracted Module in the CCG's module map
(retrievable under its id) and bumps the `"Python"` counter by exactly
one — for every tree, including one with zero classes and zero
functions (the witness below instantiates the empty tree). -/
theorem c3_python_file_counted (p : CodeParser) (g : Graph) (f : PyFile)
    (tree : List PyStmt) (hskip : shouldSkipFile f.path = false)
    (hp : f.parsed = some tree) :
    processPyFile (p, g) f =
      (⟨bumpStat p.language_stats "Python"⟩,
       { g with
         modules := dictInsert g.modules (parsePythonFile f.relPath tree).id
                      (parsePythonFile f.relPath tree),
         nodes := g.nodes ++ (parsePythonFile f.relPath tree).classes
                    ++ (parsePythonFile f.relPath tree).functions }) ∧
    dictGetD (bumpStat p.language_stats "Python") "Python" 0
      = dictGetD p.language_stats "Python" 0 + 1 ∧
    dictFind (dictInsert g.modules (parsePythonFile f.relPath tree).id
                (parsePythonFile f.relPath tree)) (parsePythonFile f.relPath tree).id
      = some (parsePythonFile f.relPath tree) := by
  refine ⟨?_, ?_, dictFind_insert_self _ _ _⟩
  · simp [processPyFile, hskip, hp]
  · simp [dictGetD_bumpStat]

/-- C3, witness: a Python file whose tree is empty (zero classes, zero
functions) still yields a Module under id `"empty"` and a counter of 1. -/
theorem c3_witness :
    processPyFile (freshParser, ⟨[], [], [], [], []⟩)
        ⟨"/r/empty.py", "empty.py", some []⟩
      = (⟨[("Python", 1)]⟩,
         ⟨[], [],
          [("empty", ⟨"empty", "empty.py", none, [], [], none, none, none⟩)],
          [], []⟩) := by
  exact (c3_python_file_counted freshParser ⟨[], [], [], [], []⟩
      ⟨"/r/empty.py", "empty.py", some []⟩ [] (by decide) rfl).1.trans (by decide)

/-! ## Claim C5 -/

/-- C5, confirmed: a file on which `_should_skip_file` returns true
contributes nothing: for each of the five extension sweeps, the CCG
built with such a file inserted anywhere in the sweep's file list is
identical — modules, nodes, counters and all — to the CCG built without
it. -/
theorem c5_skipped_files_invisible (p : CodeParser) (repo : Repo)
    (pre post : List PyFile) (f : PyFile)
    (pre2 post2 : List TextFile) (f2 : TextFile)
    (h : shouldSkipFile f.path = true) (h2 : shouldSkipFile f2.path = true) :
    (build_code_context_graph p { repo with pyFiles := pre ++ f :: post }
      = build_code_context_graph p { repo with pyFiles := pre ++ post }) ∧
    (build_code_context_graph p { repo with jsFiles := pre2 ++ f2 :: post2 }
      = build_code_context_graph p { repo with jsFiles := pre2 ++ post2 }) ∧
    (build_code_context_graph p { repo with jsxFiles := pre2 ++ f2 :: post2 }
      = build_code_context_graph p { repo with jsxFiles := pre2 ++ post2 }) ∧
    (build_code_context_graph p { repo with tsFiles := pre2 ++ f2 :: post2 }
      = build_code_context_graph p { repo with tsFiles := pre2 ++ post2 }) ∧
    (build_code_context_graph p { repo with tsxFiles := pre2 ++ f2 :: post2 }
      = build_code_context_graph p { repo with tsxFiles := pre2 ++ post2 }) := by
  refine ⟨?_, ?_, ?_, ?_, ?_⟩ <;> simp only [build_code_context_graph]
  · rw [foldl_middle_id processPyFile f (fun st => processPyFile_skip st f h)]; rfl
  · rw [foldl_middle_id processJsFile f2 (fun st => processJsFile_skip st f2 h2)]; rfl
  · rw [foldl_middle_id processJsFile f2 (fun st => processJsFile_skip st f2 h2)]; rfl
  · rw [foldl_middle_id processTsFile f2 (fun st => processTsFile_skip st f2 h2)]; rfl
  · rw [foldl_middle_id processTsxFile f2 (fun st => processTsxFile_skip st f2 h2)]; rfl

/-- C5, witness: a `node_modules` Python file and a `node_modules`
JavaScript file leave the scan of an otherwise empty repository
completely unchanged. -/
theorem c5_witness :
    build_code_context_graph freshParser
        ⟨[⟨"/r/node_modules/m.py", "node_modules/m.py", some []⟩], [], [], [], [], none, none⟩
      = build_code_context_graph freshParser ⟨[], [], [], [], [], none, none⟩ ∧
    build_code_context_graph freshParser
        ⟨[], [⟨"/r/node_modules/a.js", "node_modules/a.js", "function f()"⟩], [], [], [], none, none⟩
      = build_code_context_graph freshParser ⟨[], [], [], [], [], none, none⟩ := by
  constructor
  · exact (c5_skipped_files_invisible freshParser
      ⟨[], [], [], [], [], none, none⟩ [] [] ⟨"/r/node_modules/m.py", "node_modules/m.py", some []⟩
      [] [] ⟨"/r/node_modules/a.js", "node_modules/a.js", "function f()"⟩
      (by decide) (by decide)).1
  · exact (c5_skipped_files_invisible freshParser
      ⟨[], [], [], [], [], none, none⟩ [] [] ⟨"/r/node_modules/m.py", "node_modules/m.py", some []⟩
      [] [] ⟨"/r/node_modules/a.js", "node_modules/a.js", "function f()"⟩
      (by decide) (by decide)).2.1

/-! ## Claim C9 -/

/-- C9, confirmed: a Python file whose `ast.parse` fails is skipped
locally — the CCG built with the failing file anywhere in the `.py`
sweep equals the CCG built without it (no Module, no Node, no counter
increment), and the sweep continues over the remaining files. -/
theorem c9_syntax_error_recovered (p : CodeParser) (repo : Repo)
    (pre post : List PyFile) (f : PyFile) (h : f.parsed = none) :
    build_code_context_graph p { repo with pyFiles := pre ++ f :: post }
      = build_code_context_graph p { repo with pyFiles := pre ++ post } := by
  simp only [build_code_context_graph]
  rw [foldl_middle_id processPyFile f (fun st => processPyFile_syntaxError st f h)]
  rfl

/-- C9, witness: a repository with a valid Python file before and after
a file with invalid syntax produces exactly the CCG of the two valid
files. -/
theorem c9_witness :
    build_code_context_graph freshParser
        ⟨[⟨"/r/a.py", "a.py", some []⟩, ⟨"/r/bad.py", "bad.py", none⟩,
          ⟨"/r/b.py", "b.py", some []⟩], [], [], [], [], none, none⟩
      = build_code_context_graph freshParser
          ⟨[⟨"/r/a.py", "a.py", some []⟩, ⟨"/r/b.py", "b.py", some []⟩],
           [], [], [], [], none, none⟩ := by
  exact c9_syntax_error_recovered freshParser ⟨[], [], [], [], [], none, none⟩
    [⟨"/r/a.py", "a.py", some []⟩] [⟨"/r/b.py", "b.py", some []⟩]
    ⟨"/r/bad.py", "bad.py", none⟩ rfl

/-! ## Claim C2 -/

/-- C2, counterexample, in both pattern-based families.  JavaScript: in
`const foo = x => { return 1 }` the component declaration pattern
matches (capturing `foo`), yet because `foo` is lowercase and the JS
arrow pattern requires a parenthesised parameter list, the extractor
finds no symbol: processing the file records no Module and leaves the
counter unchanged.  TypeScript: in
`const foo: React.FC = () => { return 1 }` both component patterns
match (capturing `foo`), yet no symbol survives the lowercase filter
and no other pattern matches, so the `.ts` and `.tsx` sweeps record no
Module and leave the counter unchanged.  Both refute "if at least one
pattern matches, exactly one Module is recorded ... and the language
counter increases by exactly one". -/
theorem c2_counterexample :
    (findall reactComponentPattern "const foo = x => \x7b return 1 \x7d" = ["foo"] ∧
     processJsFile (freshParser, ⟨[], [], [], [], []⟩)
         ⟨"/r/a.js", "a.js", "const foo = x => \x7b return 1 \x7d"⟩
       = (freshParser, ⟨[], [], [], [], []⟩)) ∧
    (findall tsReactFCPattern "const foo: React.FC = () => \x7b return 1 \x7d" = ["foo"] ∧
     findall reactComponentPattern "const foo: React.FC = () => \x7b return 1 \x7d" = ["foo"] ∧
     processTsFile (freshParser, ⟨[], [], [], [], []⟩)
         ⟨"/r/a.ts", "a.ts", "const foo: React.FC = () => \x7b return 1 \x7d"⟩
       = (freshParser, ⟨[], [], [], [], []⟩) ∧
     processTsxFile (freshParser, ⟨[], [], [], [], []⟩)
         ⟨"/r/b.tsx", "b.tsx", "const foo: React.FC = () => \x7b return 1 \x7d"⟩
       = (freshParser, ⟨[], [], [], [], []⟩)) := by
  refine ⟨⟨?_, ?_⟩, ?_, ?_, ?_, ?_⟩ <;> rfl

/-- C2, amended, for both pattern-based families.  JavaScript (`.js`
and `.jsx` sweeps): if none of the four declaration patterns matches,
no Module is recorded and the counter is unchanged; if the extractor
yields at least one symbol — some pattern match that survives
classification (function, arrow-function and class matches always do;
a component match only when its name starts uppercase) — exactly one
Module is recorded for the file and the JavaScript counter increases
by exactly one.  TypeScript (`.ts` and `.tsx` sweeps): the same with
the five TypeScript declaration patterns and the TypeScript counter. -/
theorem c2_module_iff_symbols (p : CodeParser) (g : Graph) (f : TextFile)
    (hskip : shouldSkipFile f.path = false)
    (hdts : pathSuffixes f.path ≠ [".d", ".ts"]) :
    (findall jsFuncPattern f.content = [] → findall jsArrowPattern f.content = [] →
     findall classPattern f.content = [] → findall reactComponentPattern f.content = [] →
       processJsFile (p, g) f = (p, g)) ∧
    (∀ md, parseJavascriptFile f.relPath f.content = some md →
       processJsFile (p, g) f =
         (⟨bumpStat p.language_stats "JavaScript"⟩,
          { g with
            modules := dictInsert g.modules md.id md,
            nodes := g.nodes ++ md.classes ++ md.functions ++ md.components.getD [] }) ∧
       dictGetD (bumpStat p.language_stats "JavaScript") "JavaScript" 0
         = dictGetD p.language_stats "JavaScript" 0 + 1 ∧
       dictFind (dictInsert g.modules md.id md) md.id = some md) ∧
    (findall tsFuncPattern f.content = [] → findall tsArrowPattern f.content = [] →
     findall classPattern f.content = [] → findall tsReactFCPattern f.content = [] →
     findall reactComponentPattern f.content = [] →
       processTsFile (p, g) f = (p, g) ∧ processTsxFile (p, g) f = (p, g)) ∧
    (∀ md, parseTypescriptFile f.relPath f.content = some md →
       processTsFile (p, g) f =
         (⟨bumpStat p.language_stats "TypeScript"⟩,
          { g with
            modules := dictInsert g.modules md.id md,
            nodes := g.nodes ++ md.classes ++ md.functions ++ md.components.getD [] }) ∧
       processTsxFile (p, g) f =
         (⟨bumpStat p.language_stats "TypeScript"⟩,
          { g with
            modules := dictInsert g.modules md.id md,
            nodes := g.nodes ++ md.classes ++ md.functions ++ md.components.getD [] }) ∧
       dictGetD (bumpStat p.language_stats "TypeScript") "TypeScript" 0
         = dictGetD p.language_stats "TypeScript" 0 + 1 ∧
       dictFind (dictInsert g.modules md.id md) md.id = some md) := by
  refine ⟨?_, ?_, ?_, ?_⟩
  · intro h1 h2 h3 h4
    simp [processJsFile, hskip, parseJavascriptFile, h1, h2, h3, h4]
  · intro md hmd
    refine ⟨?_, ?_, dictFind_insert_self _ _ _⟩
    · simp [processJsFile, hskip, hmd]
    · simp [dictGetD_bumpStat]
  · intro h1 h2 h3 h4 h5
    have hnone : parseTypescriptFile f.relPath f.content = none := by
      simp [parseTypescriptFile, h1, h2, h3, h4, h5, dedupFirst, dedupFirstAux]
    constructor
    · simp [processTsFile, hskip, hnone]
    · simp [processTsxFile, hskip, hnone]
  · intro md hmd
    refine ⟨?_, ?_, ?_, dictFind_insert_self _ _ _⟩
    · simp [processTsFile, hskip, hdts, hmd]
    · simp [processTsxFile, hskip, hmd]
    · simp [dictGetD_bumpStat]

/-- C2, witness.  JavaScript: `function hi()` yields exactly one Module
(`"fn"`) and a JavaScript counter of 1, and a file of plain statements
matching no pattern yields nothing.  TypeScript: `const low = x => ...`
(whose arrow pattern, unlike the JS one, needs no parentheses) yields
exactly one Module (`"low"` as a function under id `"fnt"`) and a
TypeScript counter of 1 in both the `.ts` and `.tsx` sweeps. -/
theorem c2_witness :
    processJsFile (freshParser, ⟨[], [], [], [], []⟩)
        ⟨"/r/fn.js", "fn.js", "function hi()"⟩
      = (⟨[("JavaScript", 1)]⟩,
         ⟨[⟨"fn.hi", "function", "hi", "fn"⟩], [],
          [("fn", ⟨"fn", "fn.js", some "javascript", [],
                   [⟨"fn.hi", "function", "hi", "fn"⟩], some [], some [], some []⟩)],
          [], []⟩) ∧
    processJsFile (freshParser, ⟨[], [], [], [], []⟩)
        ⟨"/r/t.js", "t.js", "let x = 1"⟩
      = (freshParser, ⟨[], [], [], [], []⟩) ∧
    processTsFile (freshParser, ⟨[], [], [], [], []⟩)
        ⟨"/r/fnt.ts", "fnt.ts", "const low = x => \x7b x \x7d"⟩
      = (⟨[("TypeScript", 1)]⟩,
         ⟨[⟨"fnt.low", "function", "low", "fnt"⟩], [],
          [("fnt", ⟨"fnt", "fnt.ts", some "typescript", [],
                    [⟨"fnt.low", "function", "low", "fnt"⟩], some [], some [], some []⟩)],
          [], []⟩) ∧
    processTsxFile (freshParser, ⟨[], [], [], [], []⟩)
        ⟨"/r/t.tsx", "t.tsx", "const n = 1"⟩
      = (freshParser, ⟨[], [], [], [], []⟩) := by
  refine ⟨?_, ?_, ?_, ?_⟩
  · exact ((c2_module_iff_symbols freshParser ⟨[], [], [], [], []⟩
        ⟨"/r/fn.js", "fn.js", "function hi()"⟩ (by decide) (by decide)).2.1
        ⟨"fn", "fn.js", some "javascript", [],
         [⟨"fn.hi", "function", "hi", "fn"⟩], some [], some [], some []⟩
        (by decide)).1.trans (by decide)
  · exact (c2_module_iff_symbols freshParser ⟨[], [], [], [], []⟩
        ⟨"/r/t.js", "t.js", "let x = 1"⟩ (by decide) (by decide)).1 rfl rfl rfl rfl
  · exact ((c2_module_iff_symbols freshParser ⟨[], [], [], [], []⟩
        ⟨"/r/fnt.ts", "fnt.ts", "const low = x => \x7b x \x7d"⟩ (by decide) (by decide)).2.2.2
        ⟨"fnt", "fnt.ts", some "typescript", [],
         [⟨"fnt.low", "function", "low", "fnt"⟩], some [], some [], some []⟩
        (by decide)).1.trans (by decide)
  · exact ((c2_module_iff_symbols freshParser ⟨[], [], [], [], []⟩
        ⟨"/r/t.tsx", "t.tsx", "const n = 1"⟩ (by decide) (by decide)).2.2.1
        rfl rfl rfl rfl rfl).2

/-! ## Claim C4 -/

/-- C4, counterexample: scanning a repository with one Python file
stores a Module in the CCG's module map that has no `imports`, no
`exports`, no `components` and no `language` attribute — the Python
extractor's dict only carries `id`, `path`, `classes`, `functions` —
refuting "Every Module stored in the CCG's module map, for every
language family including Python, has an `imports` attribute ... and an
`exports` attribute". -/
theorem c4_counterexample :
    (build_code_context_graph freshParser
        ⟨[⟨"/r/m.py", "m.py", some []⟩], [], [], [], [], none, none⟩).2.modules.map
        (fun kv => (kv.2.imports, kv.2.exports, kv.2.components, kv.2.language))
      = [(none, none, none, none)] := rfl

/-- C4, amended: JavaScript- and TypeScript-family Modules carry
`imports` (the import targets captured in order, duplicates preserved)
and `exports` (the exported identifiers in order, duplicates
preserved); Python Modules carry neither attribute. -/
theorem c4_imports_exports_by_family (relPath content : String) (tree : List PyStmt) :
    (parsePythonFile relPath tree).imports = none ∧
    (parsePythonFile relPath tree).exports = none ∧
    (∀ md, parseJavascriptFile relPath content = some md →
       md.imports = some (findall importPattern content) ∧
       md.exports = some (findall exportPattern content)) ∧
    (∀ md, parseTypescriptFile relPath content = some md →
       md.imports = some (findall importPattern content) ∧
       md.exports = some (findall exportPattern content)) := by
  refine ⟨rfl, rfl, ?_, ?_⟩
  · intro md hmd
    simp only [parseJavascriptFile] at hmd
    split at hmd
    · exact absurd hmd (by simp)
    · cases hmd
      exact ⟨rfl, rfl⟩
  · intro md hmd
    simp only [parseTypescriptFile] at hmd
    split at hmd
    · exact absurd hmd (by simp)
    · cases hmd
      exact ⟨rfl, rfl⟩

/-- C4, witness: the amended rule evaluated on a JavaScript file with a
duplicated import and on the empty Python tree. -/
theorem c4_witness :
    (parsePythonFile "m.py" []).imports = none ∧
    ((parseJavascriptFile "a.js"
        "import \"x\"\nimport \"x\"\nexport const App = (p) => p").getD
        ⟨"", "", none, [], [], none, none, none⟩).imports = some ["x", "x"] := by
  constructor
  · exact (c4_imports_exports_by_family "m.py" "" []).1
  · exact (((c4_imports_exports_by_family "a.js"
        "import \"x\"\nimport \"x\"\nexport const App = (p) => p" []).2.2.1
        ((parseJavascriptFile "a.js"
            "import \"x\"\nimport \"x\"\nexport const App = (p) => p").getD
          ⟨"", "", none, [], [], none, none, none⟩)
        (by decide)).1).trans (by decide)

/-! ## Claim C8 -/

/-- C8, confirmed: a stripped, non-blank, non-comment requirements line
containing `==` becomes a Dependency whose name and version are the
trimmed parts before and after the first `==` with kind `"dependency"`;
any other non-empty, non-comment line becomes a Dependency with the
stripped line as name and version `"latest"`; and these per-line
results are exactly what `_extract_dependencies` appends after the
`package.json` results. -/
theorem c8_requirements_rules (line : String) (lines : List String) (pj : Option PackageJson) :
    ((pyStrip line != "" && !(pyStartsWith (pyStrip line) "#")) = true →
      containsSub (pyStrip line) "==" = true →
      requirementsLineDeps line
        = [⟨pyStrip (splitOnFirst (pyStrip line) "==").1,
            pyStrip (splitOnFirst (pyStrip line) "==").2, "dependency"⟩]) ∧
    ((pyStrip line != "" && !(pyStartsWith (pyStrip line) "#")) = true →
      containsSub (pyStrip line) "==" = false →
      requirementsLineDeps line = [⟨pyStrip line, "latest", "dependency"⟩]) ∧
    requirementsLineDeps "requests==2.31.0" = [⟨"requests", "2.31.0", "dependency"⟩] ∧
    requirementsLineDeps "flask" = [⟨"flask", "latest", "dependency"⟩] ∧
    extractDependencies ⟨[], [], [], [], [], pj, some lines⟩
      = packageJsonDeps pj ++ (lines.map requirementsLineDeps).flatten := by
  refine ⟨?_, ?_, rfl, rfl, rfl⟩
  · intro h1 h2
    simp [requirementsLineDeps, h1, h2]
  · intro h1 h2
    simp [requirementsLineDeps, h1, h2]

/-- C8, witness: the split rule on a padded line (trimming applies to
both parts) and the `"latest"` default on a bare name. -/
theorem c8_witness :
    requirementsLineDeps "  numpy == 1.0  " = [⟨"numpy", "1.0", "dependency"⟩] ∧
    requirementsLineDeps " scipy " = [⟨"scipy", "latest", "dependency"⟩] := by
  constructor
  · exact ((c8_requirements_rules "  numpy == 1.0  " [] none).1
      (by decide) (by decide)).trans (by decide)
  · exact ((c8_requirements_rules " scipy " [] none).2.1
      (by decide) (by decide)).trans (by decide)

/-! ### Shape lemmas for the extractors' node lists -/

/-- The nodes a module contributes, in the order the assembler appends
them: classes, functions, components. -/
def optionNodes : Option ModuleData → List Node
  | none => []
  | some md => md.classes ++ md.functions ++ md.components.getD []

def optionFunctions : Option ModuleData → List Node
  | none => []
  | some md => md.functions

def optionComponents : Option ModuleData → List Node
  | none => []
  | some md => md.components.getD []

theorem string_append_cancel_left (a b c : String) (h : a ++ b = a ++ c) : b = c := by
  have h2 : a.data ++ b.data = a.data ++ c.data := by
    rw [← String.data_append, ← String.data_append, h]
  exact String.ext (List.append_cancel_left h2)

theorem append_dot_beq (mid a b : String) :
    (mid ++ "." ++ a == mid ++ "." ++ b) = (a == b) := by
  by_cases h : a = b
  · subst h; simp
  · have h2 : mid ++ "." ++ a ≠ mid ++ "." ++ b := fun hc =>
      h (string_append_cancel_left (mid ++ ".") a b hc)
    simp [h, h2]

theorem collectSymbols_classes_mem (mid : String) (l : List PyStmt) :
    ∀ nd ∈ (collectSymbols mid l).1,
      nd.id = mid ++ "." ++ nd.name ∧ nd.module = mid ∧ nd.type = "class" := by
  induction l with
  | nil => intro nd h; cases h
  | cons s t ih =>
    intro nd h
    cases s with
    | classDef name b =>
      simp only [collectSymbols] at h
      rcases List.mem_cons.mp h with h | h
      · subst h; exact ⟨rfl, rfl, rfl⟩
      · exact ih nd h
    | functionDef name b => exact ih nd h
    | other b => exact ih nd h

theorem collectSymbols_functions_mem (mid : String) (l : List PyStmt) :
    ∀ nd ∈ (collectSymbols mid l).2,
      nd.id = mid ++ "." ++ nd.name ∧ nd.module = mid ∧ nd.type = "function" := by
  induction l with
  | nil => intro nd h; cases h
  | cons s t ih =>
    intro nd h
    cases s with
    | classDef name b => exact ih nd h
    | functionDef name b =>
      simp only [collectSymbols] at h
      rcases List.mem_cons.mp h with h | h
      · subst h; exact ⟨rfl, rfl, rfl⟩
      · exact ih nd h
    | other b => exact ih nd h

theorem collectSymbols_countP_functions (mid n : String) (l : List PyStmt) :
    (collectSymbols mid l).2.countP (fun nd => nd.id == mid ++ "." ++ n)
      = l.countP (fun s => match s with
          | PyStmt.functionDef m _ => m == n
          | _ => false) := by
  induction l with
  | nil => rfl
  | cons s t ih =>
    cases s with
    | classDef name b => simp [collectSymbols, List.countP_cons, ih]
    | functionDef name b =>
      simp only [collectSymbols, List.countP_cons, ih, append_dot_beq]
    | other b => simp [collectSymbols, List.countP_cons, ih]

theorem collectSymbols_countP_classes (mid n : String) (l : List PyStmt) :
    (collectSymbols mid l).1.countP (fun nd => nd.id == mid ++ "." ++ n)
      = l.countP (fun s => match s with
          | PyStmt.classDef m _ => m == n
          | _ => false) := by
  induction l with
  | nil => rfl
  | cons s t ih =>
    cases s with
    | classDef name b =>
      simp only [collectSymbols, List.countP_cons, ih, append_dot_beq]
    | functionDef name b => simp [collectSymbols, List.countP_cons, ih]
    | other b => simp [collectSymbols, List.countP_cons, ih]

theorem parseJs_inversion (relPath content : String) (md : ModuleData)
    (h : parseJavascriptFile relPath content = some md) :
    md = { id := jsModuleId relPath, path := relPath, language := some "javascript",
           classes := (findall classPattern content).map
             (fun n => Node.mk (jsModuleId relPath ++ "." ++ n) "class" n (jsModuleId relPath)),
           functions := (findall jsFuncPattern content).map
             (fun n => Node.mk (jsModuleId relPath ++ "." ++ n) "function" n (jsModuleId relPath))
             ++ (findall jsArrowPattern content).map
               (fun n => Node.mk (jsModuleId relPath ++ "." ++ n) "function" n (jsModuleId relPath)),
           components := some (((findall reactComponentPattern content).filter firstCharUpper).map
             (fun n => Node.mk (jsModuleId relPath ++ "." ++ n) "component" n (jsModuleId relPath))),
           imports := some (findall importPattern content),
           exports := some (findall exportPattern content) } := by
  simp only [parseJavascriptFile] at h
  split at h
  · exact absurd h (by simp)
  · cases h; rfl

theorem parseTs_inversion (relPath content : String) (md : ModuleData)
    (h : parseTypescriptFile relPath content = some md) :
    md = { id := tsModuleId relPath, path := relPath, language := some "typescript",
           classes := (findall classPattern content).map
             (fun n => Node.mk (tsModuleId relPath ++ "." ++ n) "class" n (tsModuleId relPath)),
           functions := (findall tsFuncPattern content).map
             (fun n => Node.mk (tsModuleId relPath ++ "." ++ n) "function" n (tsModuleId relPath))
             ++ (findall tsArrowPattern content).map
               (fun n => Node.mk (tsModuleId relPath ++ "." ++ n) "function" n (tsModuleId relPath)),
           components := some (((dedupFirst (findall tsReactFCPattern content
               ++ findall reactComponentPattern content)).filter firstCharUpper).map
             (fun n => Node.mk (tsModuleId relPath ++ "." ++ n) "component" n (tsModuleId relPath))),
           imports := some (findall importPattern content),
           exports := some (findall exportPattern content) } := by
  simp only [parseTypescriptFile] at h
  split at h
  · exact absurd h (by simp)
  · cases h; rfl

theorem parseJs_nodes_shape (relPath content : String) (md : ModuleData)
    (h : parseJavascriptFile relPath content = some md) :
    ∀ nd ∈ md.classes ++ md.functions ++ md.components.getD [],
      nd.id = jsModuleId relPath ++ "." ++ nd.name ∧ nd.module = jsModuleId relPath := by
  rw [parseJs_inversion relPath content md h]
  intro nd hnd
  simp only [Option.getD_some, List.mem_append, List.mem_map] at hnd
  rcases hnd with (⟨n, _, rfl⟩ | ⟨n, _, rfl⟩ | ⟨n, _, rfl⟩) | ⟨n, _, rfl⟩ <;>
    exact ⟨rfl, rfl⟩

theorem parseTs_nodes_shape (relPath content : String) (md : ModuleData)
    (h : parseTypescriptFile relPath content = some md) :
    ∀ nd ∈ md.classes ++ md.functions ++ md.components.getD [],
      nd.id = tsModuleId relPath ++ "." ++ nd.name ∧ nd.module = tsModuleId relPath := by
  rw [parseTs_inversion relPath content md h]
  intro nd hnd
  simp only [Option.getD_some, List.mem_append, List.mem_map] at hnd
  rcases hnd with (⟨n, _, rfl⟩ | ⟨n, _, rfl⟩ | ⟨n, _, rfl⟩) | ⟨n, _, rfl⟩ <;>
    exact ⟨rfl, rfl⟩

/-! ## Claim C6 -/

/-- C6, confirmed: every Node of every extractor has
`id = "<module_id>.<name>"` (with `module` the owning module's id), and
for the grammar-based extractor the number of function (resp. class)
entries carrying the id `"<module_id>.<n>"` equals the number of
`FunctionDef` (resp. `ClassDef`) nodes named `n` anywhere in the walked
tree — so two same-named declarations at any nesting depth yield two
list entries with identical ids, never deduplicated. -/
theorem c6_node_ids_and_duplicates (relPath content : String)
    (tree : List PyStmt) (n : String) :
    (((parsePythonFile relPath tree).classes ++ (parsePythonFile relPath tree).functions).all
        (fun nd => nd.id == nd.module ++ "." ++ nd.name && nd.module == pyModuleId relPath)
      = true) ∧
    ((optionNodes (parseJavascriptFile relPath content)).all
        (fun nd => nd.id == nd.module ++ "." ++ nd.name) = true) ∧
    ((optionNodes (parseTypescriptFile relPath content)).all
        (fun nd => nd.id == nd.module ++ "." ++ nd.name) = true) ∧
    ((parsePythonFile relPath tree).functions.countP
        (fun nd => nd.id == pyModuleId relPath ++ "." ++ n)
      = (walk tree).countP (fun s => match s with
          | PyStmt.functionDef m _ => m == n
          | _ => false)) ∧
    ((parsePythonFile relPath tree).classes.countP
        (fun nd => nd.id == pyModuleId relPath ++ "." ++ n)
      = (walk tree).countP (fun s => match s with
          | PyStmt.classDef m _ => m == n
          | _ => false)) := by
  refine ⟨?_, ?_, ?_, ?_, ?_⟩
  · rw [List.all_eq_true]
    intro nd hnd
    rcases List.mem_append.mp hnd with h | h
    · obtain ⟨h1, h2, _⟩ := collectSymbols_classes_mem (pyModuleId relPath) (walk tree) nd h
      simp [parsePythonFile] at h1 h2 ⊢
      simp [h1, h2]
    · obtain ⟨h1, h2, _⟩ := collectSymbols_functions_mem (pyModuleId relPath) (walk tree) nd h
      simp [parsePythonFile] at h1 h2 ⊢
      simp [h1, h2]
  · cases h : parseJavascriptFile relPath content with
    | none => rfl
    | some md =>
      rw [List.all_eq_true]
      intro nd hnd
      obtain ⟨h1, h2⟩ := parseJs_nodes_shape relPath content md h nd hnd
      simp [h1, h2]
  · cases h : parseTypescriptFile relPath content with
    | none => rfl
    | some md =>
      rw [List.all_eq_true]
      intro nd hnd
      obtain ⟨h1, h2⟩ := parseTs_nodes_shape relPath content md h nd hnd
      simp [h1, h2]
  · exact collectSymbols_countP_functions (pyModuleId relPath) n (walk tree)
  · exact collectSymbols_countP_classes (pyModuleId relPath) n (walk tree)

/-! ## Claim C7 -/

/-- C7, counterexample: `const foo = n => { return n }` binds `foo` by
an arrow-function-returning-block pattern (the component-shaped pattern
matches, capturing `foo`), `foo` is lowercase, yet the JS extractor
emits no function Node for it — indeed no Module at all — because the
arrow-function pattern requires a parenthesised parameter list; this
refutes "…is emitted as a function Node". -/
theorem c7_counterexample :
    findall reactComponentPattern "const foo = n => \x7b return n \x7d" = ["foo"] ∧
    parseJavascriptFile "lib.js" "const foo = n => \x7b return n \x7d" = none := by
  constructor <;> rfl

/-- C7, amended: a component Node is only ever emitted for a name whose
first character is uppercase (both extractors), so a lowercase-named
binding is never a component; a name matched by the arrow-function
assignment pattern (which for the JS extractor requires a parenthesised
parameter list) is always emitted as a function Node. -/
theorem c7_component_casing (relPath content : String) :
    ((optionComponents (parseJavascriptFile relPath content)).all
        (fun nd => firstCharUpper nd.name && nd.type == "component") = true) ∧
    ((optionComponents (parseTypescriptFile relPath content)).all
        (fun nd => firstCharUpper nd.name && nd.type == "component") = true) ∧
    (∀ fn, fn ∈ findall jsArrowPattern content →
        Node.mk (jsModuleId relPath ++ "." ++ fn) "function" fn (jsModuleId relPath)
          ∈ optionFunctions (parseJavascriptFile relPath content)) ∧
    (∀ fn, fn ∈ findall tsArrowPattern content →
        Node.mk (tsModuleId relPath ++ "." ++ fn) "function" fn (tsModuleId relPath)
          ∈ optionFunctions (parseTypescriptFile relPath content)) := by
  refine ⟨?_, ?_, ?_, ?_⟩
  · cases h : parseJavascriptFile relPath content with
    | none => rfl
    | some md =>
      rw [parseJs_inversion relPath content md h]
      rw [List.all_eq_true]
      rintro nd hnd
      simp only [optionComponents, Option.getD_some, List.mem_map, List.mem_filter] at hnd
      obtain ⟨n, ⟨_, hup⟩, rfl⟩ := hnd
      simp [hup]
  · cases h : parseTypescriptFile relPath content with
    | none => rfl
    | some md =>
      rw [parseTs_inversion relPath content md h]
      rw [List.all_eq_true]
      rintro nd hnd
      simp only [optionComponents, Option.getD_some, List.mem_map, List.mem_filter] at hnd
      obtain ⟨n, ⟨_, hup⟩, rfl⟩ := hnd
      simp [hup]
  · intro fn hfn
    simp only [parseJavascriptFile, optionFunctions]
    have hmem : Node.mk (jsModuleId relPath ++ "." ++ fn) "function" fn (jsModuleId relPath)
        ∈ (findall jsFuncPattern content).map
            (fun n => Node.mk (jsModuleId relPath ++ "." ++ n) "function" n (jsModuleId relPath))
          ++ (findall jsArrowPattern content).map
            (fun n => Node.mk (jsModuleId relPath ++ "." ++ n) "function" n (jsModuleId relPath)) :=
      List.mem_append_right _ (List.mem_map_of_mem _ hfn)
    have hne : ((findall jsFuncPattern content).map
            (fun n => Node.mk (jsModuleId relPath ++ "." ++ n) "function" n (jsModuleId relPath))
          ++ (findall jsArrowPattern content).map
            (fun n => Node.mk (jsModuleId relPath ++ "." ++ n) "function" n (jsModuleId relPath))).isEmpty
        = false := by
      simp [List.isEmpty_iff]
      intro _ hnil2
      exact List.not_mem_nil fn (hnil2 ▸ hfn)
    rw [hne]
    simp only [Bool.false_and, if_neg (by simp : ¬(false = true))]
    exact hmem
  · intro fn hfn
    simp only [parseTypescriptFile, optionFunctions]
    have hmem : Node.mk (tsModuleId relPath ++ "." ++ fn) "function" fn (tsModuleId relPath)
        ∈ (findall tsFuncPattern content).map
            (fun n => Node.mk (tsModuleId relPath ++ "." ++ n) "function" n (tsModuleId relPath))
          ++ (findall tsArrowPattern content).map
            (fun n => Node.mk (tsModuleId relPath ++ "." ++ n) "function" n (tsModuleId relPath)) :=
      List.mem_append_right _ (List.mem_map_of_mem _ hfn)
    have hne : ((findall tsFuncPattern content).map
            (fun n => Node.mk (tsModuleId relPath ++ "." ++ n) "function" n (tsModuleId relPath))
          ++ (findall tsArrowPattern content).map
            (fun n => Node.mk (tsModuleId relPath ++ "." ++ n) "function" n (tsModuleId relPath))).isEmpty
        = false := by
      simp [List.isEmpty_iff]
      intro _ hnil2
      exact List.not_mem_nil fn (hnil2 ▸ hfn)
    rw [hne]
    simp only [Bool.false_and, if_neg (by simp : ¬(false = true))]
    exact hmem

/-- C7, witness: in a file binding a lowercase `low` and an uppercase
`Up` by parenthesised arrow functions, `low` is emitted as a function
Node; the components list (of the same file) holds only `Up`. -/
theorem c7_witness :
    Node.mk (jsModuleId "app.js" ++ "." ++ "low") "function" "low" (jsModuleId "app.js")
      ∈ optionFunctions (parseJavascriptFile "app.js"
          "const low = (x) => \x7b x \x7d\nconst Up = (y) => \x7b y \x7d") ∧
    (optionComponents (parseJavascriptFile "app.js"
        "const low = (x) => \x7b x \x7d\nconst Up = (y) => \x7b y \x7d")).map Node.name
      = ["Up"] := by
  constructor
  · exact (c7_component_casing "app.js"
      "const low = (x) => \x7b x \x7d\nconst Up = (y) => \x7b y \x7d").2.2.1 "low" (by decide)
  · rfl

/-! ## Claim C10 -/

/-- C10, counterexample: the claim's universal part — "for every file
with a `.tsx` or `.jsx` suffix the trailing `x` survives in the id" —
fails: for the path `A.t.tss.tsx`, the single left-to-right pass that
deletes `.ts` occurrences produces `A.tsx`, which the subsequent
`.tsx` deletion removes entirely, so the module id is `"A"` and ends in
no `x` even though the path ends in `.tsx`. -/
theorem c10_counterexample :
    tsModuleId "A.t.tss.tsx" = "A" ∧
    pyEndsWith "A.t.tss.tsx" ".tsx" = true ∧
    pyEndsWith (tsModuleId "A.t.tss.tsx") "x" = false := by
  refine ⟨rfl, rfl, rfl⟩

/-- C10, amended: module-id derivation deletes every occurrence of the
shorter extension (one left-to-right pass) before the longer one, so
the trailing `x` survives whenever that first pass does not create a
new occurrence of the longer extension: `"App.tsx"` yields id `"Appx"`
(node ids prefixed `"Appx."`) because `.ts` is removed first, and
`"App.jsx"` yields `"Appx"` because `.js` is removed first; a path such
as `"A.t.tss.tsx"` where the first pass recreates `.tsx` instead
collapses to `"A"`. -/
theorem c10_extension_replacement (content : String) :
    tsModuleId "App.tsx" = "Appx" ∧
    jsModuleId "App.jsx" = "Appx" ∧
    (∀ md, parseTypescriptFile "App.tsx" content = some md →
        md.id = "Appx" ∧
        (optionNodes (some md)).all
          (fun nd => nd.id == "Appx" ++ "." ++ nd.name) = true) ∧
    (∀ md, parseJavascriptFile "App.jsx" content = some md →
        md.id = "Appx" ∧
        (optionNodes (some md)).all
          (fun nd => nd.id == "Appx" ++ "." ++ nd.name) = true) := by
  refine ⟨rfl, rfl, ?_, ?_⟩
  · intro md hmd
    have hA : tsModuleId "App.tsx" = "Appx" := rfl
    constructor
    · rw [parseTs_inversion "App.tsx" content md hmd]
      exact hA
    · rw [List.all_eq_true]
      intro nd hnd
      obtain ⟨h1, h2⟩ := parseTs_nodes_shape "App.tsx" content md hmd nd hnd
      simp [h1, h2, hA]
  · intro md hmd
    have hA : jsModuleId "App.jsx" = "Appx" := rfl
    constructor
    · rw [parseJs_inversion "App.jsx" content md hmd]
      exact hA
    · rw [List.all_eq_true]
      intro nd hnd
      obtain ⟨h1, h2⟩ := parseJs_nodes_shape "App.jsx" content md hmd nd hnd
      simp [h1, h2, hA]

/-- C10, witness: a `.tsx` component file yields module id `"Appx"` and
a component node with id `"Appx.App"`. -/
theorem c10_witness :
    ((parseTypescriptFile "App.tsx" "export const App = () => \x7b return 1 \x7d").getD
        ⟨"", "", none, [], [], none, none, none⟩).id = "Appx" ∧
    (optionNodes (parseTypescriptFile "App.tsx"
        "export const App = () => \x7b return 1 \x7d")).map Node.id
      = ["Appx.App", "Appx.App"] := by
  constructor
  · exact ((c10_extension_replacement "export const App = () => \x7b return 1 \x7d").2.2.1
      ((parseTypescriptFile "App.tsx" "export const App = () => \x7b return 1 \x7d").getD
        ⟨"", "", none, [], [], none, none, none⟩) (by decide)).1
  · rfl
